import Mathlib

/-!
Verification of the Serena deployment wrappers: project activation
(path resolution, implicit creation on a missing path, configuration
bootstrap) and the server lifecycle of the Render entrypoint (health
routing, request logging, fault handling, port selection).
-/

namespace Serena

/-- A canonical absolute path: the list of its segments from the root. -/
abbrev CPath := List String

/-- A path segment is canonical when it is nonempty and not a relative
segment (`.` or `..`). -/
def canonSeg (s : String) : Bool := !(s == "" || s == "." || s == "..")

/-- A canonical path has only canonical segments: no empty segment (a
trailing or doubled slash), no `.` and no `..`. -/
def canonical (p : CPath) : Bool := p.all canonSeg

/-- The base a raw input path starts from: the filesystem root (absolute
input), the working directory (relative input) or the home directory
(input with a leading tilde). -/
inductive RawBase where
  | root
  | rel
  | home
deriving DecidableEq

/-- A raw input path as supplied by the user: a base and a list of raw
segments which may contain empty segments (trailing slashes), `.` and
`..`. -/
structure RawPath where
  base : RawBase
  segs : List String
deriving DecidableEq

/-- The platform environment the resolver runs in: working directory, home
directory, the symbolic-link table (each entry mapping a canonical path to
its canonical target) and the fuel bounding symlink-chain traversal. -/
structure PlatformEnv where
  cwd : CPath
  home : CPath
  links : List (CPath × CPath)
  linkFuel : Nat

/-- Follow symbolic links from a canonical path, chasing chains up to the
given fuel. -/
def followLinks (links : List (CPath × CPath)) : Nat → CPath → CPath
  | 0, p => p
  | n + 1, p =>
    match links.find? (fun e => decide (e.1 = p)) with
    | some e => followLinks links n e.2
    | none => p

/-- Resolve one raw segment against a canonical base path: empty and `.`
segments are dropped, `..` removes the last component, and a name segment
is appended and then resolved through the symlink table. -/
def stepSeg (links : List (CPath × CPath)) (fuel : Nat) (base : CPath) (seg : String) : CPath :=
  if seg == "" || seg == "." then base
  else if seg == ".." then base.dropLast
  else followLinks links fuel (base ++ [seg])

/-- Modelled from the spec: the platform canonicalization used by the
resolver (`Path.resolve` in the sources' test; the resolver itself is not
among the sources): normalize the input to an absolute path, resolving `.`,
`..`, symlinks, the home directory and the working directory (spec 4.1
step 2). -/
def resolvePath (env : PlatformEnv) (p : RawPath) : CPath :=
  p.segs.foldl (stepSeg env.links env.linkFuel)
    (match p.base with
      | .root => []
      | .rel => env.cwd
      | .home => env.home)

theorem canonical_dropLast {p : CPath} (h : canonical p = true) :
    canonical p.dropLast = true := by
  simp only [canonical, List.all_eq_true] at h ⊢
  intro s hs
  exact h s (List.dropLast_subset _ hs)

theorem canonical_followLinks {links : List (CPath × CPath)}
    (hl : ∀ e ∈ links, canonical e.2 = true) :
    ∀ (n : Nat) (p : CPath), canonical p = true →
      canonical (followLinks links n p) = true := by
  intro n
  induction n with
  | zero => intro p hp; simpa [followLinks] using hp
  | succ n ih =>
    intro p hp
    rw [followLinks]
    cases hfind : links.find? (fun e => decide (e.1 = p)) with
    | none => exact hp
    | some e => exact ih e.2 (hl e (List.mem_of_find?_eq_some hfind))

theorem canonical_stepSeg {links : List (CPath × CPath)}
    (hl : ∀ e ∈ links, canonical e.2 = true) (fuel : Nat) {base : CPath}
    (hb : canonical base = true) (seg : String) :
    canonical (stepSeg links fuel base seg) = true := by
  unfold stepSeg
  split
  · exact hb
  · split
    · exact canonical_dropLast hb
    · rename_i h1 h2
      apply canonical_followLinks hl
      simp only [Bool.or_eq_true, beq_iff_eq, not_or] at h1 h2
      simp only [canonical, List.all_append, List.all_cons, List.all_nil,
        Bool.and_true, Bool.and_eq_true, canonSeg]
      refine ⟨(by simpa [canonical] using hb), ?_⟩
      simp [h1.1, h1.2, h2]

theorem canonical_foldl_stepSeg {links : List (CPath × CPath)}
    (hl : ∀ e ∈ links, canonical e.2 = true) (fuel : Nat) (segs : List String) :
    ∀ base, canonical base = true →
      canonical (segs.foldl (stepSeg links fuel) base) = true := by
  induction segs with
  | nil => intro base hb; simpa using hb
  | cons s rest ih =>
    intro base hb
    simpa [List.foldl] using ih _ (canonical_stepSeg hl fuel hb s)

theorem canonical_resolvePath (env : PlatformEnv)
    (hcwd : canonical env.cwd = true) (hhome : canonical env.home = true)
    (hl : ∀ e ∈ env.links, canonical e.2 = true) (p : RawPath) :
    canonical (resolvePath env p) = true := by
  unfold resolvePath
  apply canonical_foldl_stepSeg hl
  cases p.base
  · simp [canonical]
  · exact hcwd
  · exact hhome

/-- Modelled from the spec: the persisted project configuration record —
currently just a `languages` list, empty by default (spec section 3). -/
structure ProjectConfig where
  languages : List String
deriving DecidableEq

/-- Modelled from the spec: a Project value — canonical root path plus the
configuration record persisted alongside it (spec section 3); the field
names follow the sources' test (`project_root`, `project_config`). -/
structure Project where
  project_root : CPath
  project_config : ProjectConfig
deriving DecidableEq

/-- A model filesystem: the existing directories and the project
configuration files with their parsed contents. -/
structure FS where
  dirs : List CPath
  files : List (CPath × ProjectConfig)
deriving DecidableEq

/-- The reserved configuration subdirectory of a project root. -/
def serenaDir (root : CPath) : CPath := root ++ [".serena"]

/-- The project configuration file inside the reserved subdirectory. -/
def configFile (root : CPath) : CPath := root ++ [".serena", "project.yml"]

/-- Create one directory unless it already exists. -/
def addDir (fs : FS) (d : CPath) : FS :=
  if d ∈ fs.dirs then fs else { fs with dirs := d :: fs.dirs }

/-- Create the full directory chain down to a path (os.makedirs). -/
def mkdirs (fs : FS) (p : CPath) : FS :=
  p.inits.foldl addDir fs

/-- Look up the parsed contents of a configuration file. -/
def lookupFile (fs : FS) (p : CPath) : Option ProjectConfig :=
  (fs.files.find? (fun e => decide (e.1 = p))).map (fun e => e.2)

/-- Write a configuration file, shadowing any previous contents. -/
def writeFile (fs : FS) (p : CPath) (c : ProjectConfig) : FS :=
  { fs with files := (p, c) :: fs.files }

/-- Modelled from the spec: first-time configuration bootstrap — create the
reserved subdirectory and write a default configuration record with an
empty language list (spec section 4.1 steps 3 and 4). -/
def bootstrapConfig (fs : FS) (root : CPath) : FS :=
  writeFile (addDir fs (serenaDir root)) (configFile root) { languages := [] }

/-- Modelled from the spec: activation of a resolved project root (the body
of `activate_project_from_path_or_name` after name substitution and path
canonicalization, which is not among the sources; spec section 4.1 steps
3 to 5): create the directory chain when the root does not exist as a
directory, bootstrap the configuration when the reserved subdirectory is
missing, then load the configuration record and construct the Project
value. -/
def activateResolved (fs : FS) (root : CPath) : FS × Project :=
  if root ∈ fs.dirs then
    if serenaDir root ∈ fs.dirs then
      (fs, { project_root := root,
             project_config := (lookupFile fs (configFile root)).getD { languages := [] } })
    else
      (bootstrapConfig fs root,
       { project_root := root, project_config := { languages := [] } })
  else
    (bootstrapConfig (mkdirs fs root) root,
     { project_root := root, project_config := { languages := [] } })

/-- A path-or-name identifier: either a symbolic project name known to
prior configuration, or a filesystem path. -/
inductive Identifier where
  | name (s : String)
  | path (p : RawPath)
deriving DecidableEq

/-- The activation failure class of the sources' test: the identifier is a
symbolic name that resolves to no known project. -/
inductive ProjectNotFoundError where
  | unknownName (s : String)
deriving DecidableEq

/-- The resolver state: the registered project names with their configured
paths, and the filesystem. -/
structure SerenaState where
  registered : List (String × RawPath)
  fs : FS

/-- Look up a registered project name (spec section 4.1 step 1). -/
def lookupName (reg : List (String × RawPath)) (s : String) : Option RawPath :=
  (reg.find? (fun e => decide (e.1 = s))).map (fun e => e.2)

/-- Modelled from the spec: `activate_project_from_path_or_name` —
substitute a known registered name by its configured path, normalize to an
absolute canonical path, materialize the project on disk if needed and
return the Project; a name that resolves to no known path is the only
failure (spec section 4.1). -/
def activate (env : PlatformEnv) (st : SerenaState) (ident : Identifier) :
    Except ProjectNotFoundError (SerenaState × Project) :=
  match ident with
  | .name s =>
    match lookupName st.registered s with
    | none => .error (.unknownName s)
    | some p =>
      .ok ({ st with fs := (activateResolved st.fs (resolvePath env p)).1 },
           (activateResolved st.fs (resolvePath env p)).2)
  | .path p =>
    .ok ({ st with fs := (activateResolved st.fs (resolvePath env p)).1 },
         (activateResolved st.fs (resolvePath env p)).2)

/-- The canonical path an identifier resolves to, if any: a registered
name's configured path, or the path interpretation itself. -/
def resolveIdent (env : PlatformEnv) (st : SerenaState) : Identifier → Option CPath
  | .name s => (lookupName st.registered s).map (resolvePath env)
  | .path p => some (resolvePath env p)

theorem writeFile_dirs (fs : FS) (p : CPath) (c : ProjectConfig) :
    (writeFile fs p c).dirs = fs.dirs := rfl

theorem addDir_files (fs : FS) (d : CPath) : (addDir fs d).files = fs.files := by
  unfold addDir; split <;> rfl

theorem foldl_addDir_files (l : List CPath) :
    ∀ fs : FS, (l.foldl addDir fs).files = fs.files := by
  induction l with
  | nil => intro fs; rfl
  | cons d rest ih =>
    intro fs
    rw [List.foldl_cons, ih, addDir_files]

theorem mkdirs_files (fs : FS) (p : CPath) : (mkdirs fs p).files = fs.files :=
  foldl_addDir_files _ fs

theorem mem_dirs_addDir (fs : FS) (d a : CPath) (h : a ∈ fs.dirs) :
    a ∈ (addDir fs d).dirs := by
  unfold addDir; split
  · exact h
  · exact List.mem_cons_of_mem _ h

theorem mem_dirs_addDir_self (fs : FS) (d : CPath) : d ∈ (addDir fs d).dirs := by
  unfold addDir; split
  · assumption
  · exact List.mem_cons_self _ _

theorem mem_dirs_addDir_inv (fs : FS) (d a : CPath)
    (h : a ∈ (addDir fs d).dirs) : a ∈ fs.dirs ∨ a = d := by
  unfold addDir at h; split at h
  · exact Or.inl h
  · rcases List.mem_cons.mp h with h | h
    · exact Or.inr h
    · exact Or.inl h

theorem mem_dirs_foldl_addDir (l : List CPath) :
    ∀ (fs : FS) (a : CPath), a ∈ fs.dirs ∨ a ∈ l → a ∈ (l.foldl addDir fs).dirs := by
  induction l with
  | nil =>
    intro fs a h
    rcases h with h | h
    · exact h
    · cases h
  | cons d rest ih =>
    intro fs a h
    rw [List.foldl_cons]
    apply ih
    rcases h with h | h
    · exact Or.inl (mem_dirs_addDir fs d a h)
    · rcases List.mem_cons.mp h with h | h
      · exact Or.inl (h ▸ mem_dirs_addDir_self fs d)
      · exact Or.inr h

theorem dirs_foldl_addDir_sub (l : List CPath) :
    ∀ (fs : FS) (a : CPath), a ∈ (l.foldl addDir fs).dirs → a ∈ fs.dirs ∨ a ∈ l := by
  induction l with
  | nil => intro fs a h; exact Or.inl h
  | cons d rest ih =>
    intro fs a h
    rw [List.foldl_cons] at h
    rcases ih _ _ h with h | h
    · rcases mem_dirs_addDir_inv fs d a h with h | h
      · exact Or.inl h
      · exact Or.inr (h ▸ List.mem_cons_self _ _)
    · exact Or.inr (List.mem_cons_of_mem _ h)

theorem mem_dirs_mkdirs (fs : FS) (p a : CPath) (h : a ∈ p.inits) :
    a ∈ (mkdirs fs p).dirs :=
  mem_dirs_foldl_addDir _ fs a (Or.inr h)

theorem mem_dirs_mkdirs_self (fs : FS) (p : CPath) : p ∈ (mkdirs fs p).dirs :=
  mem_dirs_mkdirs fs p p ((List.mem_inits _ _).mpr (List.prefix_refl _))

theorem lookupFile_writeFile (fs : FS) (p : CPath) (c : ProjectConfig) :
    lookupFile (writeFile fs p c) p = some c := by
  simp [lookupFile, writeFile, List.find?_cons_of_pos]

theorem activateResolved_root (fs : FS) (root : CPath) :
    (activateResolved fs root).2.project_root = root := by
  unfold activateResolved
  split
  · split <;> rfl
  · rfl

theorem bootstrapConfig_dirs_mem (fs : FS) (root a : CPath) (h : a ∈ fs.dirs) :
    a ∈ (bootstrapConfig fs root).dirs :=
  mem_dirs_addDir fs _ a h

theorem bootstrapConfig_dirs_serena (fs : FS) (root : CPath) :
    serenaDir root ∈ (bootstrapConfig fs root).dirs :=
  mem_dirs_addDir_self fs _

theorem lookupFile_bootstrapConfig (fs : FS) (root : CPath) :
    lookupFile (bootstrapConfig fs root) (configFile root) = some { languages := [] } :=
  lookupFile_writeFile _ _ _

theorem activateResolved_creates (fs : FS) (root : CPath) (h : root ∉ fs.dirs) :
    (∀ a ∈ root.inits, a ∈ (activateResolved fs root).1.dirs) ∧
    serenaDir root ∈ (activateResolved fs root).1.dirs ∧
    lookupFile (activateResolved fs root).1 (configFile root) = some { languages := [] } ∧
    (activateResolved fs root).2 =
      { project_root := root, project_config := { languages := [] } } := by
  rw [activateResolved, if_neg h]
  refine ⟨?_, bootstrapConfig_dirs_serena _ root, lookupFile_bootstrapConfig _ root, rfl⟩
  intro a ha
  exact bootstrapConfig_dirs_mem _ root a (mem_dirs_mkdirs fs root a ha)

theorem activateResolved_idem (fs : FS) (root : CPath) :
    activateResolved (activateResolved fs root).1 root = activateResolved fs root := by
  by_cases h1 : root ∈ fs.dirs
  · by_cases h2 : serenaDir root ∈ fs.dirs
    · simp [activateResolved, h1, h2]
    · have m1 : root ∈ (bootstrapConfig fs root).dirs := bootstrapConfig_dirs_mem fs root root h1
      have m2 : serenaDir root ∈ (bootstrapConfig fs root).dirs := bootstrapConfig_dirs_serena fs root
      simp [activateResolved, h1, h2, m1, m2, lookupFile_bootstrapConfig]
  · have m1 : root ∈ (bootstrapConfig (mkdirs fs root) root).dirs :=
      bootstrapConfig_dirs_mem _ root root (mem_dirs_mkdirs_self fs root)
    have m2 : serenaDir root ∈ (bootstrapConfig (mkdirs fs root) root).dirs :=
      bootstrapConfig_dirs_serena _ root
    simp [activateResolved, h1, m1, m2, lookupFile_bootstrapConfig]

/-- An HTTP request as seen by the wrappers: method and URL path. -/
structure Request where
  method : String
  path : String
deriving DecidableEq

/-- An HTTP response: status code and plain body. -/
structure HttpResponse where
  status : Nat
  body : String
deriving DecidableEq

/-- The health-check endpoint of the Render entrypoint: a plain `OK`
response (HTTP 200, the framework's default status). -/
def health_check (_req : Request) : HttpResponse :=
  { status := 200, body := "OK" }

/-- One entry of the root application's routing table: an exact-path route
restricted to a method list, or a catch-all mounted application. -/
inductive RouteEntry where
  | route (path : String) (methods : List String) (handler : Request → HttpResponse)
  | mountAll (handler : Request → HttpResponse)

/-- First-match dispatch of the ASGI framework's router (external
collaborator): an exact-path route answers requests for its path — 405 for
a method outside its method list — a catch-all mount answers everything
that reaches it, and entries are tried in registration order. -/
def dispatch : List RouteEntry → Request → HttpResponse
  | [], _ => { status := 404, body := "Not Found" }
  | .route p ms h :: rest, req =>
    if req.path == p then
      if req.method ∈ ms then h req
      else { status := 405, body := "Method Not Allowed" }
    else dispatch rest req
  | .mountAll h :: _, req => h req

/-- The Render entrypoint's root application routing table: the health
route is added before the MCP application is mounted at the root, so it
takes precedence (render_entrypoint lines 129 and 134). -/
def rootAppRoutes (mcpApp : Request → HttpResponse) : List RouteEntry :=
  [.route "/health" ["GET"] health_check, .mountAll mcpApp]

/-- The server lifecycle states (spec section 3). -/
inductive LifecycleState where
  | constructed
  | toolsRegistering
  | ready
  | serving
  | shuttingDown
  | stopped
  | error
deriving DecidableEq

/-- The outcome of a request issued against the process in a given
lifecycle state. -/
inductive RequestOutcome where
  | success (r : HttpResponse)
  | delayed
  | rejected
  | unavailable
deriving DecidableEq

/-- Modelled from the spec: the request-admission behavior of the ASGI
server hosting the root application (uvicorn, not among the sources): in
ERROR and STOPPED the process answers nothing; in every other state the
health route of the root application's routing table is answered
immediately, while a request falling through to the mounted application is
delayed until the coordinator is SERVING (spec sections 3 and 8.5). -/
def respondInState (mcpApp : Request → HttpResponse) (st : LifecycleState)
    (req : Request) : RequestOutcome :=
  if st = .error ∨ st = .stopped then .unavailable
  else if req.path == "/health" && req.method == "GET" then
    .success (dispatch (rootAppRoutes mcpApp) req)
  else if st = .serving then .success (dispatch (rootAppRoutes mcpApp) req)
  else .delayed

/-- An observable event of the Render entrypoint process: a lifecycle
state entered, a log line, a sleep, or process exit. -/
inductive Event where
  | enterState (s : LifecycleState)
  | logLine (msg : String)
  | sleepSeconds (n : Nat)
  | exitProcess (code : Nat)
deriving DecidableEq

/-- The events of the root application's lifespan hook: registration of
the agent tools inside `factory.server_lifespan`, logged and re-raised on
failure (render_entrypoint lines 106 to 119). -/
def lifespanStartupEvents (registrationOk : Bool) : List Event :=
  [Event.logLine "Entering application lifespan...",
   Event.enterState LifecycleState.toolsRegistering] ++
  (if registrationOk then
    [Event.logLine "Serena agent tools registered successfully.",
     Event.enterState LifecycleState.ready]
  else
    [Event.logLine "Error during lifespan startup",
     Event.enterState LifecycleState.error,
     Event.logLine "Exiting application lifespan."])

/-- Modelled from the spec: the serving loop (`uvicorn.run`, not among the
sources) — it runs the application lifespan, serves traffic only after a
successful startup, and propagates a registration or serving fault to its
caller (spec sections 4.2 and 7); the result is the events observed paired
with whether an exception escaped. -/
def uvicornRun (registrationOk servingOk : Bool) : List Event × Bool :=
  if registrationOk then
    if servingOk then
      (lifespanStartupEvents true ++
        [Event.enterState LifecycleState.serving,
         Event.enterState LifecycleState.shuttingDown,
         Event.logLine "Exiting application lifespan.",
         Event.enterState LifecycleState.stopped], false)
    else
      (lifespanStartupEvents true ++
        [Event.enterState LifecycleState.serving,
         Event.enterState LifecycleState.error,
         Event.logLine "Exiting application lifespan."], true)
  else
    (lifespanStartupEvents false, true)

/-- The tail of `main` in the Render entrypoint: any exception escaping
the try block is caught, the traceback printed, and the process sleeps 30
seconds before exiting with status 1 (render_entrypoint lines 157 to
165). -/
def renderMainEvents (registrationOk servingOk : Bool) : List Event :=
  (uvicornRun registrationOk servingOk).1 ++
  (if (uvicornRun registrationOk servingOk).2 then
    [Event.logLine "CRITICAL ERROR: Application exited with exception.",
     Event.logLine "traceback.print_exc",
     Event.logLine "Sleeping for 30 seconds to allow log capture...",
     Event.sleepSeconds 30,
     Event.exitProcess 1]
  else [])

/-- Environment-variable lookup (os.environ.get). -/
def getEnvVar (env : List (String × String)) (k : String) : Option String :=
  (env.find? (fun e => decide (e.1 = k))).map (fun e => e.2)

/-- The Render entrypoint's port selection (line 82):
`int(os.environ.get("PORT", 10000))` — `none` models the `int` conversion
raising on a non-numeric value. -/
def renderPort (env : List (String × String)) : Option Nat :=
  match getEnvVar env "PORT" with
  | some v => v.toNat?
  | none => some 10000

/-- The Smithery entrypoint's port selection (line 24):
`int(os.environ.get("PORT", 8081))`. -/
def smitheryPort (env : List (String × String)) : Option Nat :=
  match getEnvVar env "PORT" with
  | some v => v.toNat?
  | none => some 8081

/-- The host the Render entrypoint binds: all interfaces. -/
def renderBindHost : String := "0.0.0.0"

/-- The host the Smithery entrypoint binds: all interfaces. -/
def smitheryBindHost : String := "0.0.0.0"

/-- The Render entrypoint's request-logging middleware: call the inner
application, log method, path and status when the response status is not
200 and the path is not the health route, and return the response
unchanged (render_entrypoint lines 147 to 152). -/
def log_request (call_next : Request → HttpResponse) (req : Request) :
    HttpResponse × List String :=
  if (call_next req).status ≠ 200 ∧ req.path ≠ "/health" then
    (call_next req,
     [req.method ++ " " ++ req.path ++ " - " ++ toString (call_next req).status])
  else (call_next req, [])

theorem dispatch_health (mcpApp : Request → HttpResponse) (req : Request)
    (hp : req.path = "/health") (hm : req.method = "GET") :
    dispatch (rootAppRoutes mcpApp) req = { status := 200, body := "OK" } := by
  simp [dispatch, rootAppRoutes, hp, hm, health_check]

theorem activate_eq_ok (env : PlatformEnv) (st : SerenaState) (ident : Identifier)
    (root : CPath) (hres : resolveIdent env st ident = some root) :
    activate env st ident =
      .ok ({ st with fs := (activateResolved st.fs root).1 },
           (activateResolved st.fs root).2) := by
  cases ident with
  | name s =>
    cases hl : lookupName st.registered s with
    | none => simp [resolveIdent, hl] at hres
    | some p =>
      simp only [resolveIdent, hl, Option.map_some'] at hres
      injection hres with hres
      subst hres
      simp [activate, hl]
  | path p =>
    simp only [resolveIdent, Option.some.injEq] at hres
    subst hres
    rfl

/-- C1: for every identifier that resolves to a filesystem path not
existing as a directory, activation creates the full directory chain,
creates the reserved configuration subdirectory, writes a default
configuration record whose languages list is present and empty, and
returns a Project whose root path equals the resolved absolute path of the
input. -/
theorem C1_activate_creates_missing_project (env : PlatformEnv)
    (st : SerenaState) (ident : Identifier) (root : CPath)
    (hres : resolveIdent env st ident = some root)
    (hmiss : root ∉ st.fs.dirs) :
    ∃ st2 proj, activate env st ident = .ok (st2, proj) ∧
      (∀ a ∈ root.inits, a ∈ st2.fs.dirs) ∧
      serenaDir root ∈ st2.fs.dirs ∧
      lookupFile st2.fs (configFile root) = some { languages := [] } ∧
      proj.project_config.languages = [] ∧
      proj.project_root = root := by
  obtain ⟨hchain, hserena, hcfg, hproj⟩ := activateResolved_creates st.fs root hmiss
  refine ⟨_, _, activate_eq_ok env st ident root hres, hchain, hserena, hcfg, ?_,
    activateResolved_root _ _⟩
  rw [hproj]

/-- Witness for C1 at a concrete input: activating the non-existent path
/tmp/new_project on an empty filesystem. -/
theorem C1_witness :
    resolveIdent ⟨[], [], [], 0⟩ ⟨[], FS.mk [] []⟩
        (.path ⟨.root, ["tmp", "new_project"]⟩) = some ["tmp", "new_project"] ∧
    (["tmp", "new_project"] : CPath) ∉ (FS.mk [] [] : FS).dirs ∧
    ∃ st2 proj,
      activate ⟨[], [], [], 0⟩ ⟨[], FS.mk [] []⟩
          (.path ⟨.root, ["tmp", "new_project"]⟩) = .ok (st2, proj) ∧
      serenaDir ["tmp", "new_project"] ∈ st2.fs.dirs ∧
      lookupFile st2.fs (configFile ["tmp", "new_project"]) = some { languages := [] } ∧
      proj.project_config.languages = [] ∧
      proj.project_root = ["tmp", "new_project"] := by
  refine ⟨by decide, by decide, ?_⟩
  obtain ⟨st2, proj, hok, _, hserena, hcfg, hlang, hroot⟩ :=
    C1_activate_creates_missing_project ⟨[], [], [], 0⟩ ⟨[], FS.mk [] []⟩
      (.path ⟨.root, ["tmp", "new_project"]⟩) ["tmp", "new_project"]
      (by decide) (by decide)
  exact ⟨st2, proj, hok, hserena, hcfg, hlang, hroot⟩

/-- C5: for every input path — whatever its mix of trailing slashes, `.`
and `..` segments, tilde base or symlink indirection — the Project returned
by activation has a root path equal to the fully resolved absolute path,
with no empty, `.` or `..` segments remaining. -/
theorem C5_root_path_canonical (env : PlatformEnv) (st : SerenaState) (p : RawPath)
    (hcwd : canonical env.cwd = true) (hhome : canonical env.home = true)
    (hl : ∀ e ∈ env.links, canonical e.2 = true) :
    ∃ st2 proj, activate env st (.path p) = .ok (st2, proj) ∧
      proj.project_root = resolvePath env p ∧
      canonical proj.project_root = true := by
  refine ⟨_, _, activate_eq_ok env st (.path p) (resolvePath env p) rfl,
    activateResolved_root _ _, ?_⟩
  rw [activateResolved_root]
  exact canonical_resolvePath env hcwd hhome hl p

/-- Witness for C5 at a concrete input: a tilde-based path with a symlink,
an empty segment, a `.` and a `..` resolves to the canonical
/home/u/real. -/
theorem C5_witness :
    (∀ e ∈ [((["home", "u", "lnk"] : CPath), (["home", "u", "real"] : CPath))],
      canonical e.2 = true) ∧
    ∃ st2 proj,
      activate ⟨["home", "u"], ["home", "u"],
          [(["home", "u", "lnk"], ["home", "u", "real"])], 2⟩
        ⟨[], FS.mk [] []⟩ (.path ⟨.home, ["lnk", "", ".", "x", ".."]⟩) = .ok (st2, proj) ∧
      proj.project_root = ["home", "u", "real"] ∧
      canonical proj.project_root = true := by
  refine ⟨by decide, ?_⟩
  obtain ⟨st2, proj, hok, hr, hc⟩ :=
    C5_root_path_canonical
      ⟨["home", "u"], ["home", "u"], [(["home", "u", "lnk"], ["home", "u", "real"])], 2⟩
      ⟨[], FS.mk [] []⟩ ⟨.home, ["lnk", "", ".", "x", ".."]⟩
      (by decide) (by decide) (by decide)
  refine ⟨st2, proj, hok, ?_, hc⟩
  rw [hr]
  decide

/-- C6: activation is idempotent on the filesystem — a first activation
adds at most the directory chain of the root, the reserved subdirectory
and one configuration file, and activating the same resolved path a second
time changes nothing and returns the same Project. -/
theorem C6_activation_idempotent (env : PlatformEnv) (st : SerenaState) (p : RawPath) :
    ∃ st2 proj, activate env st (.path p) = .ok (st2, proj) ∧
      activate env st2 (.path p) = .ok (st2, proj) ∧
      (st2.fs.files = st.fs.files ∨
        st2.fs.files =
          (configFile (resolvePath env p), { languages := [] }) :: st.fs.files) ∧
      (∀ a, a ∈ st2.fs.dirs →
        a ∈ st.fs.dirs ∨ a ∈ (resolvePath env p).inits ∨
          a = serenaDir (resolvePath env p)) := by
  refine ⟨{ st with fs := (activateResolved st.fs (resolvePath env p)).1 },
    (activateResolved st.fs (resolvePath env p)).2, rfl, ?_, ?_, ?_⟩
  · calc activate env { st with fs := (activateResolved st.fs (resolvePath env p)).1 }
          (Identifier.path p)
        = Except.ok
            ({ st with fs := (activateResolved (activateResolved st.fs (resolvePath env p)).1
                (resolvePath env p)).1 },
             (activateResolved (activateResolved st.fs (resolvePath env p)).1
                (resolvePath env p)).2) := rfl
      _ = Except.ok ({ st with fs := (activateResolved st.fs (resolvePath env p)).1 },
            (activateResolved st.fs (resolvePath env p)).2) := by
          rw [activateResolved_idem]
  · by_cases h1 : resolvePath env p ∈ st.fs.dirs
    · by_cases h2 : serenaDir (resolvePath env p) ∈ st.fs.dirs
      · left
        simp [activateResolved, h1, h2]
      · right
        simp [activateResolved, h1, h2, bootstrapConfig, writeFile, addDir_files]
    · right
      simp [activateResolved, h1, bootstrapConfig, writeFile, addDir_files, mkdirs_files]
  · intro a ha
    by_cases h1 : resolvePath env p ∈ st.fs.dirs
    · by_cases h2 : serenaDir (resolvePath env p) ∈ st.fs.dirs
      · left
        simpa [activateResolved, h1, h2] using ha
      · simp only [activateResolved, h1, h2, if_true, if_false, if_pos, if_neg,
          bootstrapConfig, writeFile] at ha
        rcases mem_dirs_addDir_inv _ _ _ ha with h | h
        · exact Or.inl h
        · exact Or.inr (Or.inr h)
    · simp only [activateResolved, h1, if_neg, bootstrapConfig, writeFile] at ha
      rcases mem_dirs_addDir_inv _ _ _ ha with h | h
      · rcases dirs_foldl_addDir_sub _ _ _ h with h | h
        · exact Or.inl h
        · exact Or.inr (Or.inl h)
      · exact Or.inr (Or.inr h)

/-- Witness for C6 at a concrete input: activating /tmp/proj twice from an
empty filesystem returns the same state and Project the second time. -/
theorem C6_witness :
    ∃ st2 proj,
      activate ⟨[], [], [], 0⟩ ⟨[], FS.mk [] []⟩ (.path ⟨.root, ["tmp", "proj"]⟩) =
        .ok (st2, proj) ∧
      activate ⟨[], [], [], 0⟩ st2 (.path ⟨.root, ["tmp", "proj"]⟩) =
        .ok (st2, proj) := by
  obtain ⟨st2, proj, h1, h2, _, _⟩ :=
    C6_activation_idempotent ⟨[], [], [], 0⟩ ⟨[], FS.mk [] []⟩ ⟨.root, ["tmp", "proj"]⟩
  exact ⟨st2, proj, h1, h2⟩

/-- C7: activation fails with a ProjectNotFoundError exactly when the
identifier is a symbolic name registered nowhere; an identifier that is a
filesystem path — existing or not — never fails. -/
theorem C7_not_found_iff_unknown_name (env : PlatformEnv) (st : SerenaState)
    (ident : Identifier) :
    (∃ e, activate env st ident = .error e) ↔
    (∃ s, ident = .name s ∧ lookupName st.registered s = none) := by
  cases ident with
  | name s =>
    cases h : lookupName st.registered s with
    | none => simp [activate, h]
    | some p => simp [activate, h]
  | path p => simp [activate]

/-- Witness for C7 at a concrete input: the unregistered name ghost fails,
while the non-existent path /nowhere succeeds. -/
theorem C7_witness :
    (∃ e, activate ⟨[], [], [], 0⟩ ⟨[], FS.mk [] []⟩ (.name "ghost") = .error e) ∧
    ¬(∃ e, activate ⟨[], [], [], 0⟩ ⟨[], FS.mk [] []⟩
        (.path ⟨.root, ["nowhere"]⟩) = .error e) := by
  constructor
  · exact (C7_not_found_iff_unknown_name ⟨[], [], [], 0⟩ ⟨[], FS.mk [] []⟩
      (.name "ghost")).mpr ⟨"ghost", rfl, rfl⟩
  · intro h
    obtain ⟨s, hs, _⟩ := (C7_not_found_iff_unknown_name ⟨[], [], [], 0⟩
      ⟨[], FS.mk [] []⟩ (.path ⟨.root, ["nowhere"]⟩)).mp h
    cases hs

/-- C4: a GET request for /health is answered 200 OK with a plain body by
the root application, whatever the mounted application would answer: the
health route precedes the catch-all mount at the root. -/
theorem C4_health_route_precedence (mcpApp : Request → HttpResponse)
    (req : Request) (hp : req.path = "/health") (hm : req.method = "GET") :
    dispatch (rootAppRoutes mcpApp) req = { status := 200, body := "OK" } :=
  dispatch_health mcpApp req hp hm

/-- Witness for C4 at a concrete input: even when the mounted application
answers 500 to everything, GET /health is 200 OK. -/
theorem C4_witness :
    dispatch (rootAppRoutes (fun _ => { status := 500, body := "broken" }))
      { method := "GET", path := "/health" } = { status := 200, body := "OK" } :=
  C4_health_route_precedence _ _ rfl rfl

/-- C2: in every lifecycle state except ERROR and STOPPED — in particular
TOOLS_REGISTERING — a GET request to the health endpoint succeeds with
200 OK, and only requests falling through to the mounted application are
delayed or rejected in that window. -/
theorem C2_health_liveness (mcpApp : Request → HttpResponse)
    (st : LifecycleState) (h1 : st ≠ .error) (h2 : st ≠ .stopped) :
    (∀ req : Request, req.path = "/health" → req.method = "GET" →
      respondInState mcpApp st req = .success { status := 200, body := "OK" }) ∧
    (∀ req : Request,
      respondInState mcpApp st req = .delayed ∨
        respondInState mcpApp st req = .rejected →
      ¬(req.path = "/health" ∧ req.method = "GET")) := by
  have hor : ¬(st = .error ∨ st = .stopped) := by
    rintro (h | h)
    · exact h1 h
    · exact h2 h
  constructor
  · intro req hp hm
    rw [respondInState, if_neg hor, if_pos (by simp [hp, hm])]
    rw [dispatch_health mcpApp req hp hm]
  · intro req hout hreq
    rcases hreq with ⟨hp, hm⟩
    rw [respondInState, if_neg hor, if_pos (by simp [hp, hm])] at hout
    rcases hout with h | h <;> cases h

/-- Witness for C2 at a concrete input: while tools are still registering
and the mounted application answers 500 to everything, GET /health is a
200 OK success. -/
theorem C2_witness :
    respondInState (fun _ => { status := 500, body := "broken" })
      LifecycleState.toolsRegistering { method := "GET", path := "/health" } =
      .success { status := 200, body := "OK" } :=
  (C2_health_liveness _ LifecycleState.toolsRegistering
    (by decide) (by decide)).1 _ rfl rfl

/-- C3: if tool registration raises during startup, the coordinator
reaches ERROR, SERVING is never entered, and the process exits with status
1 only after the diagnostics are flushed: the traceback log line and the
30 second sleep precede the exit event. -/
theorem C3_registration_failure_fatal (servingOk : Bool) :
    Event.enterState .error ∈ renderMainEvents false servingOk ∧
    Event.enterState .serving ∉ renderMainEvents false servingOk ∧
    renderMainEvents false servingOk =
      lifespanStartupEvents false ++
        [Event.logLine "CRITICAL ERROR: Application exited with exception.",
         Event.logLine "traceback.print_exc",
         Event.logLine "Sleeping for 30 seconds to allow log capture...",
         Event.sleepSeconds 30,
         Event.exitProcess 1] := by
  cases servingOk <;> decide

/-- Witness for C3 at a concrete input. -/
theorem C3_witness :
    Event.enterState .error ∈ renderMainEvents false true ∧
    Event.enterState .serving ∉ renderMainEvents false true :=
  ⟨(C3_registration_failure_fatal true).1, (C3_registration_failure_fatal true).2.1⟩

/-- C10: any exception escaping server startup or serving in the Render
wrapper is caught; the traceback is printed and the process sleeps 30
seconds before exiting with status 1 — termination after a fault is
delayed by the fixed log-capture window, never immediate. -/
theorem C10_fault_exit_delayed (registrationOk servingOk : Bool)
    (h : (uvicornRun registrationOk servingOk).2 = true) :
    renderMainEvents registrationOk servingOk =
      (uvicornRun registrationOk servingOk).1 ++
        [Event.logLine "CRITICAL ERROR: Application exited with exception.",
         Event.logLine "traceback.print_exc",
         Event.logLine "Sleeping for 30 seconds to allow log capture...",
         Event.sleepSeconds 30,
         Event.exitProcess 1] := by
  simp [renderMainEvents, h]

/-- Witness for C10 at a concrete input: a fault during serving (after a
successful registration) ends in the sleep followed by exit 1. -/
theorem C10_witness :
    (uvicornRun true false).2 = true ∧
    renderMainEvents true false =
      (uvicornRun true false).1 ++
        [Event.logLine "CRITICAL ERROR: Application exited with exception.",
         Event.logLine "traceback.print_exc",
         Event.logLine "Sleeping for 30 seconds to allow log capture...",
         Event.sleepSeconds 30,
         Event.exitProcess 1] :=
  ⟨rfl, C10_fault_exit_delayed true false rfl⟩

/-- C8: both entry points read the PORT environment variable and fall back
to their fixed default (10000 for Render, 8081 for Smithery) when it is
unset, both bind to all interfaces, and the Render wrapper's process exits
with code 1 on a startup fault. -/
theorem C8_entrypoint_port_and_exit (env : List (String × String)) :
    (getEnvVar env "PORT" = none →
      renderPort env = some 10000 ∧ smitheryPort env = some 8081) ∧
    (∀ v, getEnvVar env "PORT" = some v →
      renderPort env = v.toNat? ∧ smitheryPort env = v.toNat?) ∧
    renderBindHost = "0.0.0.0" ∧ smitheryBindHost = "0.0.0.0" ∧
    (∀ servingOk : Bool,
      (renderMainEvents false servingOk).getLast? = some (Event.exitProcess 1)) := by
  refine ⟨?_, ?_, rfl, rfl, ?_⟩
  · intro h
    exact ⟨by simp [renderPort, h], by simp [smitheryPort, h]⟩
  · intro v h
    exact ⟨by simp [renderPort, h], by simp [smitheryPort, h]⟩
  · intro servingOk
    cases servingOk <;> decide

/-- Witness for C8 at concrete inputs: an empty environment yields the
defaults, and PORT set to 1234 is read back. -/
theorem C8_witness :
    renderPort [] = some 10000 ∧ smitheryPort [] = some 8081 ∧
    renderPort [("PORT", "1234")] = "1234".toNat? ∧
    (renderMainEvents false true).getLast? = some (Event.exitProcess 1) :=
  ⟨((C8_entrypoint_port_and_exit []).1 rfl).1,
    ((C8_entrypoint_port_and_exit []).1 rfl).2,
    ((C8_entrypoint_port_and_exit [("PORT", "1234")]).2.1 "1234" rfl).1,
    (C8_entrypoint_port_and_exit []).2.2.2.2 true⟩

/-- C9: the request-logging middleware returns the inner application's
response unchanged for every request and emits a log line exactly when the
response status is not 200 and the path is not /health; successful
requests and all health probes are never logged. -/
theorem C9_log_request_transparent (call_next : Request → HttpResponse)
    (req : Request) :
    (log_request call_next req).1 = call_next req ∧
    ((log_request call_next req).2 = [] ↔
      ((call_next req).status = 200 ∨ req.path = "/health")) := by
  by_cases h1 : (call_next req).status = 200
  · constructor
    · simp [log_request, h1]
    · simp [log_request, h1]
  · by_cases h2 : req.path = "/health"
    · constructor
      · simp [log_request, h2]
      · simp [log_request, h1, h2]
    · constructor
      · simp [log_request, h1, h2]
      · simp [log_request, h1, h2]

/-- Witness for C9 at a concrete input: a health probe answered 500 is
still not logged, and the response passes through unchanged. -/
theorem C9_witness :
    (log_request (fun _ => { status := 500, body := "x" })
      { method := "GET", path := "/health" }).1 = { status := 500, body := "x" } ∧
    (log_request (fun _ => { status := 500, body := "x" })
      { method := "GET", path := "/health" }).2 = [] := by
  constructor
  · exact (C9_log_request_transparent (fun _ => { status := 500, body := "x" })
      { method := "GET", path := "/health" }).1
  · exact ((C9_log_request_transparent (fun _ => { status := 500, body := "x" })
      { method := "GET", path := "/health" }).2).mpr (Or.inr rfl)

end Serena
